import Mathlib

/-!
Verification of `script.rnaseq_map.py`, an RNAseq mapping pipeline step.

The script discovers paired and unpaired FASTQ files in a directory,
assembles one HISAT2 command per mapping job, and generates an SGE
job-array script whose body maps the scheduler-supplied task id to one
pre-assembled command, skipping tasks whose output file already exists.

The embedding below models the script's pure logic:
filenames and paths are strings (lists of characters), a directory is a
path together with its entry names in discovery order, the filesystem
state seen by the generated script's body is the list of existing paths.
Python semantics modelled character-for-character where relevant:
`str.split()` (split on whitespace runs, dropping empty tokens),
`re.sub` with the two patterns used by the script, `sorted` on strings
(lexicographic by code point), `pathlib` name extraction and joining
(faithful for paths without `.`/`..` components or repeated slashes,
which is the scope the script exercises).
-/

/-! ### Character-list utilities (Python string primitives) -/

/-- Lexicographic strict comparison of character lists by code point,
    as Python compares strings. -/
def charListLt : List Char → List Char → Bool
  | [], [] => false
  | [], _ :: _ => true
  | _ :: _, [] => false
  | a :: as, b :: bs =>
    if a.toNat < b.toNat then true
    else if b.toNat < a.toNat then false
    else charListLt as bs

/-- Python `a <= b` on strings (code-point lexicographic). -/
def strLe (a b : String) : Bool := !(charListLt b.data a.data)

/-- Insert a string into a list sorted by `strLe` (stable). -/
def insertSorted (x : String) : List String → List String
  | [] => [x]
  | y :: ys => if strLe x y then x :: y :: ys else y :: insertSorted x ys

/-- Python `sorted` on a list of strings: output is sorted by `strLe`
    and is a permutation of the input (unique characterization, since
    `strLe` is a total order on strings). -/
def sortStrings : List String → List String
  | [] => []
  | x :: xs => insertSorted x (sortStrings xs)

/-- Bool-valued list-prefix test. -/
def isPrefixAt : List Char → List Char → Bool
  | [], _ => true
  | _ :: _, [] => false
  | a :: as, b :: bs => a == b && isPrefixAt as bs

/-- Bool-valued substring test: does `pat` occur contiguously in the list? -/
def containsSeq (pat : List Char) : List Char → Bool
  | [] => isPrefixAt pat []
  | c :: cs => isPrefixAt pat (c :: cs) || containsSeq pat cs

/-- `cs` has no whitespace character. -/
def noWsL (cs : List Char) : Bool := cs.all (fun c => !c.isWhitespace)

/-! ### The two `re.sub` substitutions of `assemble_commands` -/

/-- `re.sub('_R[12]_', '_', s)` on the character list: scan left to
    right, replacing each non-overlapping occurrence of `_R1_` or `_R2_`
    by a single underscore (source line 182). -/
def subR12 : List Char → List Char
  | '_' :: 'R' :: '1' :: '_' :: rest => '_' :: subR12 rest
  | '_' :: 'R' :: '2' :: '_' :: rest => '_' :: subR12 rest
  | c :: rest => c :: subR12 rest
  | [] => []

/-- Does the character list end with `fastq`? (`fastq$` regex match,
    for names without a trailing newline). -/
def endsFastq (cs : List Char) : Bool :=
  isPrefixAt ['q', 't', 's', 'a', 'f'] cs.reverse

/-- `re.sub('fastq$', 'sam', s)`: replace a trailing `fastq` by `sam`;
    a string not ending in `fastq` is left unchanged
    (source lines 172 and 183). -/
def fastqToSamL (cs : List Char) : List Char :=
  if endsFastq cs then (cs.reverse.drop 5).reverse ++ ['s', 'a', 'm']
  else cs

/-! ### `pathlib` fragments used by the script -/

/-- Drop trailing slashes of a path's character list. -/
def dropTrailingSlashes (cs : List Char) : List Char :=
  (cs.reverse.dropWhile (fun c => c == '/')).reverse

/-- `str(Path(d))` : trailing-slash normalization, with `Path('') = '.'`
    and `Path('/') = '/'`. Faithful for paths without `.`/`..`
    components or internal repeated slashes. -/
def pathOfStr (d : String) : String :=
  let s := String.mk (dropTrailingSlashes d.data)
  if s = "" then (if d = "" then "." else "/") else s

/-- Does the path string start with a slash (an absolute component)? -/
def startsSlash (n : String) : Bool :=
  match n.data with
  | '/' :: _ => true
  | _ => false

/-- `str(Path(d) / n)` for a last component `n` (no slash inside `n`
    unless `n` is absolute): pathlib drops an empty component, a current
    directory on the left disappears, and a single slash separates
    the parts otherwise. -/
def pathJoin (d n : String) : String :=
  if n = "" then pathOfStr d
  else if startsSlash n then n
  else
    match pathOfStr d with
    | "." => n
    | "/" => "/" ++ n
    | dd => dd ++ "/" ++ n

/-- `Path(s).name`: the last path component — characters after the last
    slash, trailing slashes ignored (faithful for components other than
    `.` and `..`). -/
def pathNameL (cs : List Char) : List Char :=
  (((cs.reverse.dropWhile (fun c => c == '/')).takeWhile (fun c => !(c == '/'))).reverse)

/-! ### File discovery (`find_paired`, `find_unpaired`, `search_files`) -/

/-- A directory: its path and the names of its entries in the order the
    filesystem reports them (the order `Path.glob` iterates in). -/
structure Dir where
  dirPath : String
  entries : List String

/-- Glob pattern `*R1_paired*`: name contains `R1_paired`. -/
def matchesR1 (name : String) : Bool := containsSeq "R1_paired".data name.data

/-- Glob pattern `*R2_paired*`: name contains `R2_paired`. -/
def matchesR2 (name : String) : Bool := containsSeq "R2_paired".data name.data

/-- Glob pattern `*trimmed.fastq`: name ends with `trimmed.fastq`. -/
def matchesTrimmed (name : String) : Bool :=
  isPrefixAt "qtsaf.demmirt".data name.data.reverse

/-- `dir.glob(pattern)` followed by `str(f)`: the matching entry names,
    in discovery order, joined to the directory path. -/
def glob (d : Dir) (m : String → Bool) : List String :=
  (d.entries.filter m).map (fun n => pathJoin d.dirPath n)

/-- `find_paired` on two already-globbed path-string lists: sort each
    side independently and zip positionally (source lines 106-107). -/
def findPairedLists (R1 R2 : List String) : List (String × String) :=
  List.zip (sortStrings R1) (sortStrings R2)

/-- `find_paired(dir)` (source lines 97-108). -/
def findPaired (d : Dir) : List (String × String) :=
  findPairedLists (glob d matchesR1) (glob d matchesR2)

/-- `find_unpaired(dir, already_paired)` (source lines 110-121):
    files matching `*trimmed.fastq` whose path string is not in the
    `already_paired` set. -/
def findUnpaired (d : Dir) (alreadyPaired : List String) : List String :=
  (glob d matchesTrimmed).filter (fun f => !(decide (f ∈ alreadyPaired)))

/-- The pairing result returned by `search_files`. -/
structure FilePairing where
  paired : List (String × String)
  unpaired : List String

/-- `chain.from_iterable(pairs)`: the pair tuples flattened in order. -/
def flattenPairs (ps : List (String × String)) : List String :=
  ps.flatMap (fun p => [p.1, p.2])

/-- `search_files(data_path)` (source lines 123-144). -/
def searchFiles (d : Dir) : FilePairing :=
  let pairs := findPaired d
  { paired := pairs, unpaired := findUnpaired d (flattenPairs pairs) }

/-! ### Command assembly (`assemble_commands`) -/

/-- One mapping job: the assembled command string and the output path
    computed for its `-S` argument. -/
structure MappingJob where
  command : String
  outputPath : String
deriving DecidableEq

/-- Output filename of an unpaired job: `re.sub('fastq$', 'sam',
    Path(f).name)` (source line 172). -/
def unpairedOutName (f : String) : String :=
  String.mk (fastqToSamL (pathNameL f.data))

/-- Output filename of a paired job, derived from the first file of the
    pair: strip the read-index marker, then replace the `fastq`
    extension (source lines 182-183). -/
def pairedOutName (p1 : String) : String :=
  String.mk (fastqToSamL (subR12 (pathNameL p1.data)))

/-- The unpaired mapping job for one file (source lines 170-175). -/
def unpairedJob (idx out f : String) : MappingJob :=
  let S := pathJoin out (unpairedOutName f)
  { command := "hisat2 --dta -x " ++ idx ++ " -U " ++ f ++ " -S " ++ S,
    outputPath := S }

/-- The paired mapping job for one pair (source lines 180-187). -/
def pairedJob (idx out : String) (p : String × String) : MappingJob :=
  let S := pathJoin out (pairedOutName p.1)
  { command := "hisat2 --dta -x " ++ idx ++ " -1 " ++ p.1 ++ " -2 " ++ p.2 ++ " -S " ++ S,
    outputPath := S }

/-- The first loop of `assemble_commands`: one job per unpaired file,
    in order. -/
def assembleUnpaired (idx out : String) : List String → List MappingJob
  | [] => []
  | f :: fs => unpairedJob idx out f :: assembleUnpaired idx out fs

/-- The second loop of `assemble_commands`: one job per pair, in order. -/
def assemblePaired (idx out : String) : List (String × String) → List MappingJob
  | [] => []
  | p :: ps => pairedJob idx out p :: assemblePaired idx out ps

/-- `assemble_commands(files, idx_prefix, output_path)` as a job list:
    the generator yields all unpaired jobs, then all paired jobs
    (source lines 146-188). -/
def assembleJobs (files : FilePairing) (idx out : String) : List MappingJob :=
  assembleUnpaired idx out files.unpaired ++ assemblePaired idx out files.paired

/-- The command strings yielded by `assemble_commands`, in order. -/
def assembleCommands (files : FilePairing) (idx out : String) : List String :=
  (assembleJobs files idx out).map MappingJob.command

/-! ### The generated job-array script (`main`) -/

/-- The task-array directive of the generated script:
    `#$ -t 1-{len(commands)}` (source line 283). -/
def taskArrayLine (cmds : List String) : String :=
  "#$ -t 1-" ++ toString cmds.length

/-- The embedded id-to-command mapping
    `commands[i+1] = s for i, s in enumerate(commands)`
    (source lines 254-255 and 302-303). -/
def commandsDict (cmds : List String) : List (Nat × String) :=
  cmds.enum.map (fun p => (p.1 + 1, p.2))

/-- Python `command.split()`: maximal whitespace-free runs, empty runs
    dropped. `cur` accumulates the current word reversed. -/
def wordsAux : List Char → List Char → List (List Char)
  | cur, [] => if cur.isEmpty then [] else [cur.reverse]
  | cur, c :: cs =>
    if c.isWhitespace then
      if cur.isEmpty then wordsAux [] cs
      else cur.reverse :: wordsAux [] cs
    else wordsAux (c :: cur) cs

/-- Python `command.split()` on a string. -/
def words (s : String) : List String :=
  (wordsAux [] s.data).map (fun cs => String.mk cs)

/-- Python `list.index(x)` returning the first index, `none` where the
    source would raise `ValueError`. -/
def indexOfTok : List String → String → Option Nat
  | [], _ => none
  | t :: ts, x => if t = x then some 0 else (indexOfTok ts x).map (fun i => i + 1)

/-- `command.split()[command.split().index("-S") + 1]` on a token list,
    `none` where the source would raise (source line 312). -/
def findS (toks : List String) : Option String :=
  match indexOfTok toks "-S" with
  | some i => toks[i + 1]?
  | none => none

/-- The output file the generated script's body extracts from a
    command: the token following the first `-S` (source line 312). -/
def scriptOutputFile (cmd : String) : Option String := findS (words cmd)

/-- What one task of the generated script does (source lines 305-324):
    either it logs the skip message and stops, or it logs the start
    timestamp, runs the command's token list as a subprocess, waits,
    and logs the finish timestamp. `executed` is the only constructor
    under which a subprocess is spawned. -/
inductive BodyOutcome where
  | skipped (taskId : Nat) (outputFile : String)
  | executed (taskId : Nat) (argv : List String)
deriving DecidableEq

/-- The body of the generated script for one task id, given the
    commands embedded in the script and the list of existing files
    (`Path.exists`). `none` models the uncaught exceptions of a missing
    dict key or a missing `-S` token (source lines 305-324). -/
def runBody (cmds existing : List String) (taskId : Nat) : Option BodyOutcome :=
  match (commandsDict cmds).lookup taskId with
  | none => none
  | some command =>
    match scriptOutputFile command with
    | none => none
    | some outputFile =>
      if outputFile ∈ existing then some (.skipped taskId outputFile)
      else some (.executed taskId (words command))

/-- The subprocess invocations a body outcome performs: none on a skip,
    the split command on an execution (source line 321). -/
def subprocessCalls : Option BodyOutcome → List (List String)
  | some (.executed _ argv) => [argv]
  | _ => []

/-! ### Helper lemmas: the assembly loops are maps -/

lemma assembleUnpaired_eq_map (idx out : String) (fs : List String) :
    assembleUnpaired idx out fs = fs.map (unpairedJob idx out) := by
  induction fs with
  | nil => rfl
  | cons f fs ih => simp [assembleUnpaired, ih]

lemma assemblePaired_eq_map (idx out : String) (ps : List (String × String)) :
    assemblePaired idx out ps = ps.map (pairedJob idx out) := by
  induction ps with
  | nil => rfl
  | cons p ps ih => simp [assemblePaired, ih]

/-! ### Helper lemmas: the string sort permutes its input and sorts it -/

lemma perm_insertSorted (x : String) (l : List String) :
    List.Perm (insertSorted x l) (x :: l) := by
  induction l with
  | nil => exact List.Perm.refl _
  | cons y ys ih =>
    rw [insertSorted]
    split_ifs
    · exact List.Perm.refl _
    · exact ((ih.cons y).trans (List.Perm.swap x y ys))

lemma perm_sortStrings (l : List String) : List.Perm (sortStrings l) l := by
  induction l with
  | nil => exact List.Perm.refl _
  | cons x xs ih => exact (perm_insertSorted x (sortStrings xs)).trans (ih.cons x)

lemma length_sortStrings (l : List String) : (sortStrings l).length = l.length :=
  (perm_sortStrings l).length_eq

lemma mem_insertSorted {a x : String} {l : List String} :
    a ∈ insertSorted x l ↔ a = x ∨ a ∈ l := by
  rw [(perm_insertSorted x l).mem_iff]
  simp

lemma charListLt_asymm : ∀ as bs : List Char,
    charListLt as bs = true → charListLt bs as = false := by
  intro as
  induction as with
  | nil =>
    intro bs h
    cases bs with
    | nil => rfl
    | cons b bs => rfl
  | cons a as ih =>
    intro bs h
    cases bs with
    | nil => simp [charListLt] at h
    | cons b bs =>
      rw [charListLt] at h ⊢
      split_ifs at h ⊢ with g1 g2 g3 g4 <;>
        first
        | rfl
        | omega
        | exact ih bs h
        | simp_all

lemma charListLt_negtrans2 : ∀ cs bs as : List Char,
    charListLt bs as = false → charListLt cs bs = false →
    charListLt cs as = false := by
  intro cs
  induction cs with
  | nil =>
    intro bs as h1 h2
    cases bs with
    | nil =>
      cases as with
      | nil => rfl
      | cons a as => simp [charListLt] at h1
    | cons b bs => simp [charListLt] at h2
  | cons c cs ih =>
    intro bs as h1 h2
    cases as with
    | nil => rfl
    | cons a as =>
      cases bs with
      | nil => simp [charListLt] at h1
      | cons b bs =>
        rw [charListLt] at h1 h2 ⊢
        split_ifs at h1 h2 ⊢ with g1 g2 g3 g4 g5 g6 <;>
          first
          | rfl
          | omega
          | (exact ih bs as h1 h2)
          | simp_all

lemma strLe_total (a b : String) : strLe a b = true ∨ strLe b a = true := by
  unfold strLe
  rcases Bool.eq_false_or_eq_true (charListLt b.data a.data) with h | h
  · right
    simp [charListLt_asymm b.data a.data h]
  · left
    simp [h]

lemma strLe_trans {a b c : String} (h1 : strLe a b = true)
    (h2 : strLe b c = true) : strLe a c = true := by
  unfold strLe at h1 h2 ⊢
  simp only [Bool.not_eq_true'] at h1 h2 ⊢
  exact charListLt_negtrans2 c.data b.data a.data h1 h2

lemma pairwise_insertSorted {x : String} {l : List String}
    (h : l.Pairwise (fun a b => strLe a b = true)) :
    (insertSorted x l).Pairwise (fun a b => strLe a b = true) := by
  induction l with
  | nil => simp [insertSorted]
  | cons y ys ih =>
    rw [insertSorted]
    rw [List.pairwise_cons] at h
    split_ifs with hxy
    · rw [List.pairwise_cons]
      constructor
      · intro b hb
        rcases List.mem_cons.1 hb with hb | hb
        · subst hb
          exact hxy
        · exact strLe_trans hxy (h.1 b hb)
      · exact List.pairwise_cons.2 h
    · rw [List.pairwise_cons]
      constructor
      · intro b hb
        rcases mem_insertSorted.1 hb with hb | hb
        · rw [hb]
          rcases strLe_total x y with hxy2 | hyx
          · exact absurd hxy2 hxy
          · exact hyx
        · exact h.1 b hb
      · exact ih h.2

lemma pairwise_sortStrings (l : List String) :
    (sortStrings l).Pairwise (fun a b => strLe a b = true) := by
  induction l with
  | nil => simp [sortStrings]
  | cons x xs ih => exact pairwise_insertSorted ih

/-! ### Claims C1 to C6 -/

/-- Claim C1: for the input directory containing exactly
    `a_R1_paired.fastq`, `a_R2_paired.fastq` and `b_trimmed.fastq`, with
    index prefix `idx` and output directory `out/`, the assembler
    produces exactly the unpaired command followed by the paired
    command, and the generated script declares a task array of size 2. -/
theorem claim_C1 :
    assembleCommands
        (searchFiles ⟨".", ["a_R1_paired.fastq", "a_R2_paired.fastq", "b_trimmed.fastq"]⟩)
        "idx" "out/" =
      ["hisat2 --dta -x idx -U b_trimmed.fastq -S out/b_trimmed.sam",
       "hisat2 --dta -x idx -1 a_R1_paired.fastq -2 a_R2_paired.fastq -S out/a_paired.sam"]
    ∧ taskArrayLine
        (assembleCommands
          (searchFiles ⟨".", ["a_R1_paired.fastq", "a_R2_paired.fastq", "b_trimmed.fastq"]⟩)
          "idx" "out/") = "#$ -t 1-2" := by
  decide

/-- Claim C2: the paired job's output filename for
    `sample_R1_001.fastq` and `sample_R2_001.fastq` is `sample_001.sam`
    (read-index marker collapsed to one underscore, `fastq` replaced by
    `sam`, derived from the first file of the pair); the unpaired job's
    output filename for `sampleX_trimmed.fastq` is
    `sampleX_trimmed.sam`. -/
theorem claim_C2 :
    pairedOutName "sample_R1_001.fastq" = "sample_001.sam"
    ∧ (pairedJob "idx" "out" ("sample_R1_001.fastq", "sample_R2_001.fastq")).outputPath
        = "out/sample_001.sam"
    ∧ unpairedOutName "sampleX_trimmed.fastq" = "sampleX_trimmed.sam"
    ∧ (unpairedJob "idx" "out" "sampleX_trimmed.fastq").outputPath
        = "out/sampleX_trimmed.sam" := by
  decide

/-- Claim C3: for same-length R1/R2 path lists, `find_paired` returns
    the zip of the two independently sorted lists: the first components
    are exactly the sorted R1 list and the second components exactly the
    sorted R2 list, each a permutation of its input (so every input file
    appears in exactly one pair), each sorted lexicographically. -/
theorem claim_C3 (R1 R2 : List String) (h : R1.length = R2.length) :
    (findPairedLists R1 R2).map Prod.fst = sortStrings R1
    ∧ (findPairedLists R1 R2).map Prod.snd = sortStrings R2
    ∧ List.Perm ((findPairedLists R1 R2).map Prod.fst) R1
    ∧ List.Perm ((findPairedLists R1 R2).map Prod.snd) R2
    ∧ ((findPairedLists R1 R2).map Prod.fst).Pairwise (fun a b => strLe a b = true)
    ∧ ((findPairedLists R1 R2).map Prod.snd).Pairwise (fun a b => strLe a b = true) := by
  have hl : (sortStrings R1).length = (sortStrings R2).length := by
    rw [length_sortStrings, length_sortStrings, h]
  have hfst : (findPairedLists R1 R2).map Prod.fst = sortStrings R1 := by
    unfold findPairedLists
    exact List.map_fst_zip _ _ (le_of_eq hl)
  have hsnd : (findPairedLists R1 R2).map Prod.snd = sortStrings R2 := by
    unfold findPairedLists
    exact List.map_snd_zip _ _ (le_of_eq hl.symm)
  exact ⟨hfst, hsnd, hfst ▸ perm_sortStrings R1, hsnd ▸ perm_sortStrings R2,
    hfst ▸ pairwise_sortStrings R1, hsnd ▸ pairwise_sortStrings R2⟩

/-- Witness for C3 at a concrete same-length input. -/
theorem claim_C3_witness :
    (findPairedLists ["b", "a"] ["d", "c"]).map Prod.fst = sortStrings ["b", "a"]
    ∧ (findPairedLists ["b", "a"] ["d", "c"]).map Prod.snd = sortStrings ["d", "c"]
    ∧ List.Perm ((findPairedLists ["b", "a"] ["d", "c"]).map Prod.fst) ["b", "a"]
    ∧ List.Perm ((findPairedLists ["b", "a"] ["d", "c"]).map Prod.snd) ["d", "c"]
    ∧ ((findPairedLists ["b", "a"] ["d", "c"]).map Prod.fst).Pairwise
        (fun a b => strLe a b = true)
    ∧ ((findPairedLists ["b", "a"] ["d", "c"]).map Prod.snd).Pairwise
        (fun a b => strLe a b = true) :=
  claim_C3 ["b", "a"] ["d", "c"] rfl

/-- Claim C4: no file appears both in a pair returned by `find_paired`
    and in the unpaired list built by `search_files`. -/
theorem claim_C4 (d : Dir) (f : String)
    (hf : f ∈ flattenPairs (searchFiles d).paired) :
    f ∉ (searchFiles d).unpaired := by
  intro hu
  have hp : (searchFiles d).paired = findPaired d := rfl
  have hq : (searchFiles d).unpaired = findUnpaired d (flattenPairs (findPaired d)) := rfl
  rw [hq] at hu
  rw [hp] at hf
  unfold findUnpaired at hu
  rw [List.mem_filter] at hu
  simp only [Bool.not_eq_eq_eq_not, Bool.not_true, decide_eq_false_iff_not] at hu
  exact hu.2 hf

/-- Witness for C4 at a concrete directory and file. -/
theorem claim_C4_witness :
    "a_R1_paired.fastq" ∈
      flattenPairs (searchFiles ⟨".", ["a_R1_paired.fastq", "a_R2_paired.fastq"]⟩).paired
    ∧ "a_R1_paired.fastq" ∉
        (searchFiles ⟨".", ["a_R1_paired.fastq", "a_R2_paired.fastq"]⟩).unpaired :=
  ⟨by decide, claim_C4 ⟨".", ["a_R1_paired.fastq", "a_R2_paired.fastq"]⟩
    "a_R1_paired.fastq" (by decide)⟩

/-- Claim C5: for R1/R2 lists of unequal length, `find_paired` raises
    no error (it is total) and returns exactly as many pairs as the
    shorter list. -/
theorem claim_C5 (R1 R2 : List String) (h : R1.length ≠ R2.length) :
    (findPairedLists R1 R2).length = min R1.length R2.length := by
  unfold findPairedLists
  rw [List.length_zip, length_sortStrings, length_sortStrings]

/-- Witness for C5 at a concrete unequal-length input. -/
theorem claim_C5_witness :
    (findPairedLists ["a", "b"] ["c"]).length = min (["a", "b"].length) (["c"].length) :=
  claim_C5 ["a", "b"] ["c"] (by decide)

/-- Claim C6: `assemble_commands` yields all unpaired jobs first, in
    discovery order, then all paired jobs, in pairing order. -/
theorem claim_C6 (files : FilePairing) (idx out : String) :
    assembleJobs files idx out =
      files.unpaired.map (unpairedJob idx out)
        ++ files.paired.map (pairedJob idx out) := by
  unfold assembleJobs
  rw [assembleUnpaired_eq_map, assemblePaired_eq_map]

/-! ### Claim C7: task-array bound and the embedded id-to-command map -/

lemma enumFrom_lookup (l : List String) : ∀ n id : Nat, n < id → id ≤ n + l.length →
    ((l.enumFrom n).map (fun p => (p.1 + 1, p.2))).lookup id = l[id - n - 1]? := by
  induction l with
  | nil =>
    intro n id h1 h2
    simp only [List.length_nil, Nat.add_zero] at h2
    omega
  | cons a l ih =>
    intro n id h1 h2
    simp only [List.enumFrom, List.map_cons, List.lookup]
    by_cases hid : id = n + 1
    · subst hid
      simp
    · have hbeq : (id == n + 1) = false := by
        simp [hid]
      rw [hbeq]
      have hlen : id ≤ (n + 1) + l.length := by
        simp only [List.length_cons] at h2
        omega
      rw [ih (n + 1) id (by omega) hlen]
      have hix : id - n - 1 = (id - n - 2) + 1 := by omega
      rw [hix, List.getElem?_cons_succ]
      have : id - (n + 1) - 1 = id - n - 2 := by omega
      rw [this]

lemma enumFrom_keys (l : List String) : ∀ n : Nat,
    (((l.enumFrom n).map (fun p => (p.1 + 1, p.2))).map Prod.fst)
      = List.range' (n + 1) l.length := by
  induction l with
  | nil =>
    intro n
    simp [List.enumFrom]
  | cons a l ih =>
    intro n
    simp only [List.enumFrom, List.map_cons, List.length_cons, List.range'_succ]
    rw [ih (n + 1)]

/-- Claim C7: the generated script's task-array directive is `-t 1-N`
    for `N` commands, the dict keys are exactly `1..N`, and each task id
    in `1..N` looks up the command at that 1-based position. -/
theorem claim_C7 (cmds : List String) :
    taskArrayLine cmds = "#$ -t 1-" ++ toString cmds.length
    ∧ (commandsDict cmds).map Prod.fst = List.range' 1 cmds.length
    ∧ ∀ id : Nat, 1 ≤ id → id ≤ cmds.length →
        (commandsDict cmds).lookup id = cmds[id - 1]? := by
  refine ⟨rfl, ?_, ?_⟩
  · unfold commandsDict
    rw [show cmds.enum = cmds.enumFrom 0 from rfl]
    simpa using enumFrom_keys cmds 0
  · intro id h1 h2
    unfold commandsDict
    rw [show cmds.enum = cmds.enumFrom 0 from rfl]
    have := enumFrom_lookup cmds 0 id (by omega) (by omega)
    simpa using this

/-- Witness for C7 at a concrete command list and task id. -/
theorem claim_C7_witness :
    (commandsDict ["u", "v", "w"]).lookup 2 = ["u", "v", "w"][2 - 1]? :=
  (claim_C7 ["u", "v", "w"]).2.2 2 (by decide) (by decide)

/-! ### Claim C8: idempotent skip in the generated script's body -/

/-- Claim C8: for a task whose command's declared output file (the
    token after `-S`) already exists, the body reports the skip and
    spawns no subprocess; otherwise it executes the split command as a
    subprocess (logging start and finish around it). -/
theorem claim_C8 (cmds existing : List String) (id : Nat) (cmd out : String)
    (hc : (commandsDict cmds).lookup id = some cmd)
    (ho : scriptOutputFile cmd = some out) :
    (out ∈ existing →
        runBody cmds existing id = some (BodyOutcome.skipped id out)
        ∧ subprocessCalls (runBody cmds existing id) = [])
    ∧ (out ∉ existing →
        runBody cmds existing id = some (BodyOutcome.executed id (words cmd))
        ∧ subprocessCalls (runBody cmds existing id) = [words cmd]) := by
  unfold runBody
  simp only [hc, ho]
  constructor
  · intro hmem
    rw [if_pos hmem]
    exact ⟨rfl, rfl⟩
  · intro hmem
    rw [if_neg hmem]
    exact ⟨rfl, rfl⟩

/-- Witness for C8: with the output file present, task 1 skips. -/
theorem claim_C8_witness :
    runBody ["hisat2 --dta -x idx -U f.fastq -S out/f.sam"] ["out/f.sam"] 1
      = some (BodyOutcome.skipped 1 "out/f.sam")
    ∧ subprocessCalls
        (runBody ["hisat2 --dta -x idx -U f.fastq -S out/f.sam"] ["out/f.sam"] 1) = [] :=
  (claim_C8 ["hisat2 --dta -x idx -U f.fastq -S out/f.sam"] ["out/f.sam"] 1
    "hisat2 --dta -x idx -U f.fastq -S out/f.sam" "out/f.sam"
    (by decide) (by decide)).1 (by decide)

/-! ### Claim C9: behaviour on malformed filenames -/

/-- Does the character list contain a read-index marker `_R1_` or
    `_R2_`? -/
def hasR12 (cs : List Char) : Bool :=
  containsSeq ['_', 'R', '1', '_'] cs || containsSeq ['_', 'R', '2', '_'] cs

lemma subR12_eq_self : ∀ {cs : List Char}, hasR12 cs = false → subR12 cs = cs := by
  intro cs
  induction cs using subR12.induct with
  | case1 rest ih =>
    intro h
    simp [hasR12, containsSeq, isPrefixAt] at h
  | case2 rest ih =>
    intro h
    simp [hasR12, containsSeq, isPrefixAt] at h
  | case3 c rest h1 h2 ih =>
    intro h
    have hrest : hasR12 rest = false := by
      simp only [hasR12, containsSeq, Bool.or_eq_false_iff] at h ⊢
      exact ⟨h.1.2, h.2.2⟩
    simp_all [subR12]
  | case4 =>
    intro h
    rfl

/-- Counterexample to C9 as stated: for the malformed unpaired filename
    `b.txt` (no `fastq` to strip), `assemble_commands` signals nothing —
    it produces a normal job whose output path keeps the filename
    unchanged. -/
theorem claim_C9_cex :
    assembleJobs ⟨[], ["b.txt"]⟩ "idx" "out" =
      [{ command := "hisat2 --dta -x idx -U b.txt -S out/b.txt",
         outputPath := "out/b.txt" }] := by
  decide

/-- Claim C9 as amended: on filenames missing the expected substrings
    the assembler raises nothing and leaves the filename unchanged: the
    output path is the output directory joined with the unmodified
    name (both substitutions act as the identity). -/
theorem claim_C9_amended (idx out f p1 p2 : String)
    (hf : endsFastq (pathNameL f.data) = false)
    (h1 : endsFastq (pathNameL p1.data) = false)
    (h2 : hasR12 (pathNameL p1.data) = false) :
    (unpairedJob idx out f).outputPath = pathJoin out (String.mk (pathNameL f.data))
    ∧ (pairedJob idx out (p1, p2)).outputPath
        = pathJoin out (String.mk (pathNameL p1.data)) := by
  constructor
  · simp [unpairedJob, unpairedOutName, fastqToSamL, hf]
  · simp [pairedJob, pairedOutName, subR12_eq_self h2, fastqToSamL, h1]

/-- Witness for the amended C9 at concrete malformed names. -/
theorem claim_C9_witness :
    (unpairedJob "idx" "out" "b.txt").outputPath
        = pathJoin "out" (String.mk (pathNameL "b.txt".data))
    ∧ (pairedJob "idx" "out" ("c.txt", "d.fastq")).outputPath
        = pathJoin "out" (String.mk (pathNameL "c.txt".data)) :=
  claim_C9_amended "idx" "out" "b.txt" "c.txt" "d.fastq"
    (by decide) (by decide) (by decide)

/-! ### Claim C10: the `-S` token recovered by the generated script -/

lemma noWsL_append (a b : List Char) :
    noWsL (a ++ b) = (noWsL a && noWsL b) := by
  simp [noWsL, List.all_append]

lemma noWsL_of_sublist {l1 l2 : List Char} (h : List.Sublist l1 l2)
    (h2 : noWsL l2 = true) : noWsL l1 = true := by
  simp only [noWsL, List.all_eq_true] at h2 ⊢
  exact fun c hc => h2 c (h.subset hc)

lemma pathNameL_sublist (cs : List Char) : List.Sublist (pathNameL cs) cs := by
  unfold pathNameL
  have h1 := (List.takeWhile_sublist (fun c => !(c == '/'))).trans
    (List.dropWhile_sublist (fun c => c == '/') (l := cs.reverse))
  have h2 := h1.reverse
  simpa using h2

lemma dropTrailingSlashes_sublist (cs : List Char) :
    List.Sublist (dropTrailingSlashes cs) cs := by
  unfold dropTrailingSlashes
  have h2 := (List.dropWhile_sublist (fun c => c == '/') (l := cs.reverse)).reverse
  simpa using h2

lemma noWsL_subR12 : ∀ {cs : List Char}, noWsL cs = true → noWsL (subR12 cs) = true := by
  intro cs
  induction cs using subR12.induct with
  | case1 rest ih =>
    intro h
    simp_all [subR12, noWsL]
  | case2 rest ih =>
    intro h
    simp_all [subR12, noWsL]
  | case3 c rest h1 h2 ih =>
    intro h
    simp_all [subR12, noWsL]
  | case4 =>
    intro h
    exact h

lemma noWsL_fastqToSamL {cs : List Char} (h : noWsL cs = true) :
    noWsL (fastqToSamL cs) = true := by
  unfold fastqToSamL
  split_ifs
  · rw [noWsL_append, Bool.and_eq_true]
    constructor
    · refine noWsL_of_sublist ?_ h
      have h2 := (List.drop_sublist 5 cs.reverse).reverse
      simpa using h2
    · decide
  · exact h

lemma noWsL_pathOfStr {d : String} (h : noWsL d.data = true) :
    noWsL (pathOfStr d).data = true := by
  simp only [pathOfStr]
  by_cases h1 : String.mk (dropTrailingSlashes d.data) = ""
  · rw [if_pos h1]
    by_cases h2 : d = ""
    · rw [if_pos h2]
      decide
    · rw [if_neg h2]
      decide
  · rw [if_neg h1]
    exact noWsL_of_sublist (dropTrailingSlashes_sublist d.data) h

lemma noWsL_pathJoin {d n : String} (hd : noWsL d.data = true)
    (hn : noWsL n.data = true) : noWsL (pathJoin d n).data = true := by
  unfold pathJoin
  split_ifs
  · exact noWsL_pathOfStr hd
  · exact hn
  · split
    · exact hn
    · have e : ("/" ++ n).data = '/' :: n.data := rfl
      rw [e]
      simpa [noWsL] using hn
    · rw [String.data_append, String.data_append, noWsL_append, noWsL_append]
      simp only [Bool.and_eq_true]
      refine ⟨⟨?_, by decide⟩, hn⟩
      exact noWsL_pathOfStr hd

lemma mk_ne_empty {cs : List Char} (h : cs ≠ []) : String.mk cs ≠ "" := by
  intro he
  exact h (congrArg String.data he)

lemma pathJoin_data_ne_nil (d n : String) : (pathJoin d n).data ≠ [] := by
  unfold pathJoin
  split_ifs with h1 h2
  · simp only [pathOfStr]
    by_cases ha : String.mk (dropTrailingSlashes d.data) = ""
    · rw [if_pos ha]
      by_cases hb : d = ""
      · rw [if_pos hb]
        decide
      · rw [if_neg hb]
        decide
    · rw [if_neg ha]
      intro he
      exact ha (String.ext he)
  · intro he
    exact h1 (String.ext he)
  · split
    · intro he
      exact h1 (String.ext he)
    · intro he
      simp [String.data_append] at he
    · intro he
      simp [String.data_append] at he

lemma wordsAux_nonws : ∀ (w cur rest : List Char), noWsL w = true →
    wordsAux cur (w ++ rest) = wordsAux (w.reverse ++ cur) rest := by
  intro w
  induction w with
  | nil =>
    intro cur rest h
    simp
  | cons c w ih =>
    intro cur rest h
    simp only [noWsL, List.all_cons, Bool.and_eq_true, Bool.not_eq_true'] at h
    have hc : c.isWhitespace = false := h.1
    have hw : noWsL w = true := h.2
    show wordsAux cur (c :: (w ++ rest)) = _
    rw [wordsAux, hc]
    simp only [Bool.false_eq_true, if_false]
    rw [ih (c :: cur) rest hw]
    simp [List.append_assoc]

lemma wordsAux_chunk (w rest : List Char) (hw : noWsL w = true) :
    wordsAux [] (w ++ ' ' :: rest)
      = (if w.isEmpty then [] else [w]) ++ wordsAux [] rest := by
  rw [wordsAux_nonws w [] (' ' :: rest) hw, List.append_nil]
  rw [wordsAux]
  have hsp : (' ').isWhitespace = true := by decide
  rw [hsp]
  simp only [if_true]
  by_cases h : w = []
  · subst h
    simp
  · have h1 : w.reverse.isEmpty = false := by
      simp [List.isEmpty_iff, h]
    have h2 : w.isEmpty = false := by
      simp [List.isEmpty_iff, h]
    rw [h1, h2]
    simp

lemma wordsAux_last (w : List Char) (hw : noWsL w = true) :
    wordsAux [] w = if w.isEmpty then [] else [w] := by
  have h0 := wordsAux_nonws w [] [] hw
  rw [List.append_nil] at h0
  rw [h0, wordsAux]
  by_cases h : w = []
  · subst h
    simp
  · simp [List.append_nil, List.isEmpty_iff, h]

lemma indexOfTok_cons_ne {t x : String} (ht : ¬ t = x) (ts : List String) :
    indexOfTok (t :: ts) x = (indexOfTok ts x).map (fun i => i + 1) := by
  rw [indexOfTok, if_neg ht]

lemma findS_skip (t : String) (ht : ¬ t = "-S") (ts : List String) :
    findS (t :: ts) = findS ts := by
  unfold findS
  rw [indexOfTok_cons_ne ht ts]
  cases h : indexOfTok ts "-S" with
  | none => simp [h]
  | some i => simp [h, List.getElem?_cons_succ]

lemma findS_words_chunk (w rest : List Char) (hw : noWsL w = true)
    (hne : String.mk w ≠ "-S") :
    findS ((wordsAux [] (w ++ ' ' :: rest)).map (fun cs => String.mk cs))
      = findS ((wordsAux [] rest).map (fun cs => String.mk cs)) := by
  rw [wordsAux_chunk w rest hw]
  by_cases h : w = []
  · subst h
    simp
  · have h2 : w.isEmpty = false := by
      simp [List.isEmpty_iff, h]
    rw [h2]
    simp only [Bool.false_eq_true, if_false, List.singleton_append, List.map_cons]
    exact findS_skip (String.mk w) hne _

lemma findS_words_hitS (S : List Char) (hS : noWsL S = true) (hne : S ≠ []) :
    findS ((wordsAux [] (('-' :: 'S' :: []) ++ ' ' :: S)).map (fun cs => String.mk cs))
      = some (String.mk S) := by
  rw [wordsAux_chunk _ _ (by decide)]
  rw [wordsAux_last S hS]
  have h1 : ('-' :: 'S' :: []).isEmpty = false := rfl
  have h2 : S.isEmpty = false := by
    simp [List.isEmpty_iff, hne]
  rw [h1, h2]
  show findS [String.mk ('-' :: 'S' :: []), String.mk S] = some (String.mk S)
  unfold findS indexOfTok
  rw [if_pos rfl]
  rfl

lemma findS_unpairedCmd (idx f S : String)
    (hx : noWsL idx.data = true) (hf : noWsL f.data = true) (hS : noWsL S.data = true)
    (hxne : idx ≠ "-S") (hfne : f ≠ "-S") (hSne : S.data ≠ []) :
    scriptOutputFile ("hisat2 --dta -x " ++ idx ++ " -U " ++ f ++ " -S " ++ S)
      = some S := by
  unfold scriptOutputFile words
  have e : ("hisat2 --dta -x " ++ idx ++ " -U " ++ f ++ " -S " ++ S).data
      = "hisat2".data ++ ' ' :: ("--dta".data ++ ' ' :: ("-x".data ++ ' ' ::
        (idx.data ++ ' ' :: ("-U".data ++ ' ' :: (f.data ++ ' ' ::
        (('-' :: 'S' :: []) ++ ' ' :: S.data)))))) := by
    simp only [String.data_append, List.append_assoc]
    rfl
  rw [e]
  rw [findS_words_chunk _ _ (by decide) (by decide)]
  rw [findS_words_chunk _ _ (by decide) (by decide)]
  rw [findS_words_chunk _ _ (by decide) (by decide)]
  rw [findS_words_chunk _ _ hx hxne]
  rw [findS_words_chunk _ _ (by decide) (by decide)]
  rw [findS_words_chunk _ _ hf hfne]
  rw [findS_words_hitS S.data hS hSne]

lemma findS_pairedCmd (idx p1 p2 S : String)
    (hx : noWsL idx.data = true) (h1 : noWsL p1.data = true) (h2 : noWsL p2.data = true)
    (hS : noWsL S.data = true) (hxne : idx ≠ "-S") (h1ne : p1 ≠ "-S") (h2ne : p2 ≠ "-S")
    (hSne : S.data ≠ []) :
    scriptOutputFile
        ("hisat2 --dta -x " ++ idx ++ " -1 " ++ p1 ++ " -2 " ++ p2 ++ " -S " ++ S)
      = some S := by
  unfold scriptOutputFile words
  have e : ("hisat2 --dta -x " ++ idx ++ " -1 " ++ p1 ++ " -2 " ++ p2 ++ " -S " ++ S).data
      = "hisat2".data ++ ' ' :: ("--dta".data ++ ' ' :: ("-x".data ++ ' ' ::
        (idx.data ++ ' ' :: ("-1".data ++ ' ' :: (p1.data ++ ' ' ::
        ("-2".data ++ ' ' :: (p2.data ++ ' ' ::
        (('-' :: 'S' :: []) ++ ' ' :: S.data)))))))) := by
    simp only [String.data_append, List.append_assoc]
    rfl
  rw [e]
  rw [findS_words_chunk _ _ (by decide) (by decide)]
  rw [findS_words_chunk _ _ (by decide) (by decide)]
  rw [findS_words_chunk _ _ (by decide) (by decide)]
  rw [findS_words_chunk _ _ hx hxne]
  rw [findS_words_chunk _ _ (by decide) (by decide)]
  rw [findS_words_chunk _ _ h1 h1ne]
  rw [findS_words_chunk _ _ (by decide) (by decide)]
  rw [findS_words_chunk _ _ h2 h2ne]
  rw [findS_words_hitS S.data hS hSne]

/-- Counterexample to C10 as stated: with the whitespace-free index
    prefix `-S`, the token after the first `-S` of the command is not
    the job's output path. -/
theorem claim_C10_cex :
    scriptOutputFile ((unpairedJob "-S" "out" "f.fastq").command)
      ≠ some ((unpairedJob "-S" "out" "f.fastq").outputPath) := by
  decide

/-- Claim C10 as amended: for jobs assembled from a whitespace-free
    index prefix, input paths and output directory, none of which is
    itself the literal token `-S`, splitting the command on whitespace
    and taking the token after the first `-S` yields exactly the job's
    computed output path — so the generated script's existence check
    examines the file the command will write. -/
theorem claim_C10_amended (idx out f p1 p2 : String)
    (hxw : noWsL idx.data = true) (how : noWsL out.data = true)
    (hfw : noWsL f.data = true) (h1w : noWsL p1.data = true) (h2w : noWsL p2.data = true)
    (hx : idx ≠ "-S") (hf : f ≠ "-S") (h1 : p1 ≠ "-S") (h2 : p2 ≠ "-S") :
    scriptOutputFile (unpairedJob idx out f).command
        = some ((unpairedJob idx out f).outputPath)
    ∧ scriptOutputFile (pairedJob idx out (p1, p2)).command
        = some ((pairedJob idx out (p1, p2)).outputPath) := by
  constructor
  · have hS : noWsL (pathJoin out (unpairedOutName f)).data = true :=
      noWsL_pathJoin how
        (noWsL_fastqToSamL (noWsL_of_sublist (pathNameL_sublist f.data) hfw))
    have hSne : (pathJoin out (unpairedOutName f)).data ≠ [] :=
      pathJoin_data_ne_nil out (unpairedOutName f)
    exact findS_unpairedCmd idx f (pathJoin out (unpairedOutName f))
      hxw hfw hS hx hf hSne
  · have hS : noWsL (pathJoin out (pairedOutName p1)).data = true :=
      noWsL_pathJoin how
        (noWsL_fastqToSamL (noWsL_subR12
          (noWsL_of_sublist (pathNameL_sublist p1.data) h1w)))
    have hSne : (pathJoin out (pairedOutName p1)).data ≠ [] :=
      pathJoin_data_ne_nil out (pairedOutName p1)
    exact findS_pairedCmd idx p1 p2 (pathJoin out (pairedOutName p1))
      hxw h1w h2w hS hx h1 h2 hSne

/-- Witness for the amended C10 at the pipeline's own filenames. -/
theorem claim_C10_witness :
    scriptOutputFile (unpairedJob "idx" "out" "b_trimmed.fastq").command
        = some ((unpairedJob "idx" "out" "b_trimmed.fastq").outputPath)
    ∧ scriptOutputFile
          (pairedJob "idx" "out" ("a_R1_paired.fastq", "a_R2_paired.fastq")).command
        = some ((pairedJob "idx" "out"
            ("a_R1_paired.fastq", "a_R2_paired.fastq")).outputPath) :=
  claim_C10_amended "idx" "out" "b_trimmed.fastq" "a_R1_paired.fastq" "a_R2_paired.fastq"
    (by decide) (by decide) (by decide) (by decide) (by decide)
    (by decide) (by decide) (by decide) (by decide)
